import Mathlib

/-!
Verification of the pypyr-cli step engine specification.

The repository ships the unit tests of `pypyr.dsl`, `pypyr.moduleloader` and
`pypyr.utils.poll` together with two small utility modules; the bodies of
`dsl.py`, `moduleloader.py`, `poll.py`, `errors.py` and `context.py` are not
part of the source tree.  Each definition below that embeds one of those
missing bodies is therefore modelled from the specification (and pinned by the
behaviour the unit tests in the repository assert), as stated in its doc
comment.

Conventions of the shallow embedding:
* Python values flowing through the engine are the inductive `Val`.
* The shared mutable context is an association list, threaded explicitly.
* Logging, sleeping and plugin invocation are recorded in an event trace.
* Exceptions are explicit `Option PyErr` / `Except` results.
* Unbounded loops take an explicit fuel budget; theorems are stated with
  sufficient fuel, and bounded loops compute their own sufficient fuel.
-/

namespace Pypyr

/-- Python values as used by the step engine: booleans, integers, strings,
lists and `None`.  Floats never reach any behaviour the claims quantify over,
so they are not modelled. -/
inductive Val where
  | vbool : Bool → Val
  | vint : Int → Val
  | vstr : String → Val
  | vlist : List Val → Val
  | vnone : Val
deriving Repr

mutual

/-- Boolean equality on values (needed by hand because of the nested list). -/
def Val.beq : Val → Val → Bool
  | .vbool x, .vbool y => x == y
  | .vint x, .vint y => x == y
  | .vstr x, .vstr y => x == y
  | .vlist x, .vlist y => Val.beqList x y
  | .vnone, .vnone => true
  | .vbool _, _ => false
  | .vint _, _ => false
  | .vstr _, _ => false
  | .vlist _, _ => false
  | .vnone, _ => false

/-- Boolean equality on lists of values. -/
def Val.beqList : List Val → List Val → Bool
  | [], [] => true
  | x :: xs, y :: ys => Val.beq x y && Val.beqList xs ys
  | [], _ :: _ => false
  | _ :: _, [] => false

end

mutual

theorem Val.beq_iff : ∀ a b : Val, (Val.beq a b = true) ↔ a = b
  | .vbool x, .vbool y => by simp [Val.beq]
  | .vint x, .vint y => by simp [Val.beq]
  | .vstr x, .vstr y => by simp [Val.beq]
  | .vlist x, .vlist y => by simp [Val.beq, Val.beqList_iff x y]
  | .vnone, .vnone => by simp [Val.beq]
  | .vbool _, .vint _ => by simp [Val.beq]
  | .vbool _, .vstr _ => by simp [Val.beq]
  | .vbool _, .vlist _ => by simp [Val.beq]
  | .vbool _, .vnone => by simp [Val.beq]
  | .vint _, .vbool _ => by simp [Val.beq]
  | .vint _, .vstr _ => by simp [Val.beq]
  | .vint _, .vlist _ => by simp [Val.beq]
  | .vint _, .vnone => by simp [Val.beq]
  | .vstr _, .vbool _ => by simp [Val.beq]
  | .vstr _, .vint _ => by simp [Val.beq]
  | .vstr _, .vlist _ => by simp [Val.beq]
  | .vstr _, .vnone => by simp [Val.beq]
  | .vlist _, .vbool _ => by simp [Val.beq]
  | .vlist _, .vint _ => by simp [Val.beq]
  | .vlist _, .vstr _ => by simp [Val.beq]
  | .vlist _, .vnone => by simp [Val.beq]
  | .vnone, .vbool _ => by simp [Val.beq]
  | .vnone, .vint _ => by simp [Val.beq]
  | .vnone, .vstr _ => by simp [Val.beq]
  | .vnone, .vlist _ => by simp [Val.beq]

theorem Val.beqList_iff : ∀ a b : List Val, (Val.beqList a b = true) ↔ a = b
  | [], [] => by simp [Val.beqList]
  | [], _ :: _ => by simp [Val.beqList]
  | _ :: _, [] => by simp [Val.beqList]
  | x :: xs, y :: ys => by
      simp [Val.beqList, Bool.and_eq_true, Val.beq_iff x y, Val.beqList_iff xs ys]

end

instance : DecidableEq Val := fun a b => decidable_of_iff _ (Val.beq_iff a b)

/-- The pypyr Context: an ordered mapping from string keys to values
(`pypyr.context.Context`, an external collaborator of the core). -/
abbrev Context := List (String × Val)

/-- Key lookup in a context (first binding wins, as in a dict). -/
def ctxGet : Context → String → Option Val
  | [], _ => none
  | (k₀, v) :: rest, k => if k₀ = k then some v else ctxGet rest k

/-- Key update in a context: overwrite an existing binding in place, else
append, preserving insertion order like a Python dict. -/
def ctxSet : Context → String → Val → Context
  | [], k, v => [(k, v)]
  | (k₀, v₀) :: rest, k, v =>
      if k₀ = k then (k, v) :: rest else (k₀, v₀) :: ctxSet rest k v

/-- The open-brace character, written by code point to keep template literals
readable. -/
def obrace : Char := Char.ofNat 123

/-- The close-brace character. -/
def cbrace : Char := Char.ofNat 125

/-- One piece of a string template: literal text or a `\x7bkey\x7d`
placeholder. -/
inductive TplPart where
  | lit : String → TplPart
  | ph : String → TplPart
deriving DecidableEq, Repr

/-- Collect the characters of a placeholder key up to the closing brace,
returning the key and the remaining characters. -/
def splitPh : List Char → Option (String × List Char)
  | [] => none
  | c :: cs =>
      if c = cbrace then some ("", cs)
      else
        match splitPh cs with
        | some (k, rest) => some (String.singleton c ++ k, rest)
        | none => none

theorem splitPh_length {cs : List Char} {k : String} {rest : List Char}
    (h : splitPh cs = some (k, rest)) : rest.length < cs.length := by
  induction cs generalizing k rest with
  | nil => simp [splitPh] at h
  | cons c cs ih =>
      by_cases hc : c = cbrace
      · simp [splitPh, hc] at h
        simp [h.2.symm]
      · simp only [splitPh, if_neg hc] at h
        cases hsp : splitPh cs with
        | none => rw [hsp] at h; simp at h
        | some pr =>
            rw [hsp] at h
            cases pr with
            | mk k₁ rest₁ =>
                simp at h
                have := ih (show splitPh cs = some (k₁, rest₁) by simp [hsp])
                simp [← h.2]
                omega

/-- Fuel-driven scanner for `str.format`-style templates.  Fuel is at least
the number of characters plus one, so it never runs out on real input. -/
def scanTplF : Nat → List Char → Option (List TplPart)
  | 0, _ => none
  | _ + 1, [] => some []
  | fuel + 1, c :: cs =>
      if c = obrace then
        match splitPh cs with
        | some (k, rest) =>
            match scanTplF fuel rest with
            | some ps => some (TplPart.ph k :: ps)
            | none => none
        | none => none
      else
        match scanTplF fuel cs with
        | some (TplPart.lit s :: ps) => some (TplPart.lit (String.singleton c ++ s) :: ps)
        | some ps => some (TplPart.lit (String.singleton c) :: ps)
        | none => none

/-- Parse a string into template parts; `none` means the string is not a
well-formed template (unbalanced braces). -/
def scanTpl (s : String) : Option (List TplPart) :=
  scanTplF (s.length + 1) s.toList

/-- Python `str(value)` as used when a value is interpolated into a template
or a log message.  List rendering is abstracted (no claim renders a list). -/
def renderVal : Val → String
  | .vbool true => "True"
  | .vbool false => "False"
  | .vint n => toString n
  | .vstr s => s
  | .vlist _ => "[list]"
  | .vnone => "None"

/-- Render scanned template parts against a context.  A key that is missing
from the context renders as `None`; the claims only exercise present keys. -/
def renderParts (ctx : Context) : List TplPart → String
  | [] => ""
  | .lit s :: ps => s ++ renderParts ctx ps
  | .ph k :: ps => renderVal ((ctxGet ctx k).getD .vnone) ++ renderParts ctx ps

/-- Modelled from the spec: the Expression Resolver (external collaborator,
`pypyr.context.Context.get_formatted_*`, not in the source tree).  A raw value
that is not a string is returned unchanged.  A string that consists of exactly
one placeholder resolves to the context value itself, preserving its type; any
other string has each placeholder interpolated as text. -/
def formatVal (ctx : Context) : Val → Val
  | .vstr s =>
      match scanTpl s with
      | some [TplPart.ph k] => (ctxGet ctx k).getD .vnone
      | some parts => .vstr (renderParts ctx parts)
      | none => .vstr s
  | v => v

/-- Lower-casing of a string (Python `str.lower`), defined over the character
list so that it computes by kernel reduction. -/
def strToLower (s : String) : String :=
  String.mk (s.toList.map Char.toLower)

/-- Python truthiness of a value (`bool(value)`). -/
def truthy : Val → Bool
  | .vbool b => b
  | .vint n => decide (n ≠ 0)
  | .vstr s => decide (s ≠ "")
  | .vlist l => decide (l ≠ [])
  | .vnone => false

/-- Modelled from the spec: boolean coercion of a decorator flag
(`Context.get_formatted_as_type(value, out_type=bool)`, not in the source
tree).  A string is resolved first; if the resolved value is still a string it
is truthy iff it case-insensitively equals `"true"`, otherwise the resolved
value is coerced by truthiness (booleans pass through, numbers are truthy iff
nonzero). -/
def getFormattedAsBool (ctx : Context) (v : Val) : Bool :=
  match v with
  | .vstr s =>
      match formatVal ctx (.vstr s) with
      | .vstr r => strToLower r == "true"
      | r => truthy r
  | v => truthy v

/-- Integer view of a value (`int(value)`), `none` when the cast fails. -/
def valToInt : Val → Option Int
  | .vint n => some n
  | .vbool b => some (if b then 1 else 0)
  | .vstr s => s.toInt?
  | _ => none

/-- Modelled from the spec: integer coercion of a decorator field
(`Context.get_formatted_as_type(value, out_type=int)`): resolve first, then
cast. -/
def getFormattedAsInt (ctx : Context) (v : Val) : Option Int :=
  valToInt (formatVal ctx v)

/-- Rational view of a value (`float(value)`); float-typed strings never occur
in the claims and default to `0`. -/
def valToRat : Val → ℚ
  | .vint n => (n : ℚ)
  | .vbool b => if b then 1 else 0
  | _ => 0

/-- Modelled from the spec: float coercion of the `sleep` field: resolve
first, then cast. -/
def getFormattedAsRat (ctx : Context) (v : Val) : ℚ :=
  valToRat (formatVal ctx v)

/-- The context used throughout the unit tests of `pypyr.dsl`, restricted to
the keys the claims exercise. -/
def testCtx : Context :=
  [("key1", .vstr "value1"), ("key2", .vstr "value2"), ("key3", .vstr "value3"),
   ("key5", .vbool false), ("key6", .vbool true), ("key7", .vint 77)]

example : formatVal testCtx (.vstr "{key1}") = .vstr "value1" := by decide
example : formatVal testCtx (.vstr "formatted {key1}") = .vstr "formatted value1" := by decide
example : formatVal testCtx (.vstr "{key6}") = .vbool true := by decide
example : getFormattedAsBool testCtx (.vstr "{key1}") = false := by decide
example : getFormattedAsBool testCtx (.vstr "TRUE") = true := by decide
example : getFormattedAsBool testCtx (.vint (-1)) = true := by decide
example : getFormattedAsBool testCtx (.vstr "{key5}") = false := by decide

/-- A single quote character, used inside error-message literals. -/
def sq : String := String.singleton (Char.ofNat 39)

/-- Modelled from the spec: the exception surface of `pypyr.errors` (not in
the source tree) together with the builtin exceptions the engine raises or
propagates.  Each constructor carries the exception message. -/
inductive PyErr where
  | pipelineDefinition : String → PyErr
  | loopMaxExhausted : String → PyErr
  | pyModuleNotFound : String → PyErr
  | valueError : String → PyErr
  | typeError : String → PyErr
  | attributeError : String → PyErr
  | arb : String → String → PyErr
  | modelDiverge : PyErr
deriving DecidableEq, Repr

/-- Python `type(e).__name__` for a raised exception. -/
def PyErr.typeName : PyErr → String
  | .pipelineDefinition _ => "PipelineDefinitionError"
  | .loopMaxExhausted _ => "LoopMaxExhaustedError"
  | .pyModuleNotFound _ => "PyModuleNotFoundError"
  | .valueError _ => "ValueError"
  | .typeError _ => "TypeError"
  | .attributeError _ => "AttributeError"
  | .arb t _ => t
  | .modelDiverge => "ModelDiverge"

/-- Python `str(e)` for a raised exception. -/
def PyErr.msg : PyErr → String
  | .pipelineDefinition m => m
  | .loopMaxExhausted m => m
  | .pyModuleNotFound m => m
  | .valueError m => m
  | .typeError m => m
  | .attributeError m => m
  | .arb _ m => m
  | .modelDiverge => ""

/-- Observable events of a run: log records, sleeps, poll attempts, plugin
invocations and module resolutions.  Log lines that would interpolate a float
are modelled as structured events (`loopSummary`, `whileSummary`) because the
embedding does not model float rendering. -/
inductive Ev where
  | info : String → Ev
  | errorL : String → Ev
  | debugL : String → Ev
  | sleepE : ℚ → Ev
  | pollCall : Nat → Ev
  | loopSummary : ℚ → Option Int → Ev
  | whileSummary : Option Int → Option String → ℚ → Ev
  | invoke : Ev
  | resolveModule : String → Ev
deriving DecidableEq, Repr

/-- Is this event a poll attempt marker? -/
def isPollCall : Ev → Bool
  | .pollCall _ => true
  | _ => false

/-- Is this event a module resolution? -/
def isResolveEv : Ev → Bool
  | .resolveModule _ => true
  | _ => false

/-- Result of one call of the polled body: its events, the state it leaves
behind, the exception it raised if any, and its boolean result. -/
structure FOut (σ : Type) : Type where
  events : List Ev
  state : σ
  err : Option PyErr
  result : Bool

/-- How a poll loop ended. -/
inductive PollStatus where
  | found
  | exhausted
  | raised : PyErr → PollStatus
  | fuelOut
deriving DecidableEq, Repr

/-- Result of a poll loop: trace, number of body calls made, final state and
termination status. -/
structure PollRes (σ : Type) : Type where
  trace : List Ev
  attempts : Nat
  state : σ
  status : PollStatus

/-- The boolean value the Python function returns (`True` iff the body
reported the desired state). -/
def PollRes.retval {σ : Type} (r : PollRes σ) : Bool :=
  match r.status with
  | .found => true
  | _ => false

/-- Modelled from the spec: the iteration of `pypyr.utils.poll.while_until_true`
(not in the source tree).  `i` is the 1-based attempt counter injected into
the body; a normalized `maxAttempts` of `none` means unbounded (the Python
code tests `if max_attempts:`, so a zero max also means unbounded and is
normalized away by the wrapper).  Sleeping `interval` seconds happens between
calls only: never before the first call and never after a terminating call. -/
def pollGo {σ : Type} (interval : ℚ) (maxAttempts : Option Int)
    (f : Nat → σ → FOut σ) : Nat → Nat → σ → PollRes σ
  | 0, _, s => ⟨[], 0, s, .fuelOut⟩
  | fuel + 1, i, s =>
      let r := f i s
      match r.err with
      | some e => ⟨.pollCall i :: r.events, 1, r.state, .raised e⟩
      | none =>
          if r.result then
            ⟨.pollCall i :: r.events ++
               [.debugL ("iteration " ++ toString i ++ ". Desired state reached.")],
             1, r.state, .found⟩
          else
            match maxAttempts with
            | some m =>
                if (i : Int) < m then
                  let rest := pollGo interval maxAttempts f fuel (i + 1) r.state
                  ⟨.pollCall i :: r.events ++
                     [.debugL ("iteration " ++ toString i ++ ". Still waiting. . ."),
                      .sleepE interval] ++ rest.trace,
                   rest.attempts + 1, rest.state, rest.status⟩
                else
                  ⟨.pollCall i :: r.events ++
                     [.debugL ("iteration " ++ toString i ++ ". Max attempts exhausted.")],
                   1, r.state, .exhausted⟩
            | none =>
                let rest := pollGo interval maxAttempts f fuel (i + 1) r.state
                ⟨.pollCall i :: r.events ++
                   [.debugL ("iteration " ++ toString i ++ ". Still waiting. . ."),
                    .sleepE interval] ++ rest.trace,
                 rest.attempts + 1, rest.state, rest.status⟩

/-- Modelled from the spec: `pypyr.utils.poll.while_until_true` (not in the
source tree).  Wraps the body with the fixed progress logs, injects the
1-based attempt counter, and loops until the body returns true or the
attempts are exhausted.  `fuel` is the recursion budget of the shallow
embedding: it only matters in the unbounded mode, where callers must supply
enough of it. -/
def while_until_true {σ : Type} (interval : ℚ) (maxAttempts : Option Int) (fuel : Nat)
    (f : Nat → σ → FOut σ) (s : σ) : PollRes σ :=
  let mNorm : Option Int :=
    match maxAttempts with
    | some m => if m = 0 then none else some m
    | none => none
  let r := pollGo interval mNorm f fuel 1 s
  let post : List Ev :=
    match r.status with
    | .raised _ => []
    | .fuelOut => []
    | _ => [.debugL "done"]
  ⟨[.debugL "started", .loopSummary interval maxAttempts] ++ r.trace ++ post,
   r.attempts, r.state, r.status⟩

/-- The while decorator: `stop`, `max`, `sleep` and `error_on_max` are stored
unresolved, exactly as written in the pipeline (`pypyr.dsl.WhileDecorator`).
`none` means the field was absent. -/
structure WhileDecorator : Type where
  stop : Option Val
  max : Option Val
  sleep : Val := .vint 0
  error_on_max : Val := .vbool false
deriving DecidableEq, Repr

/-- Outcome of running a step construct: its event trace, the context it
leaves behind, and the exception it propagates if any. -/
structure Outcome : Type where
  events : List Ev
  ctx : Context
  err : Option PyErr
deriving DecidableEq, Repr

/-- Modelled from the spec: `WhileDecorator.exec_iteration` (not in the source
tree).  Writes the 1-based `whileCounter` into the context, logs, runs the
body; the poll result is false when no `stop` is configured, else the
resolved-and-coerced `stop`, evaluated against the context the body left
behind. -/
def exec_iteration (wd : WhileDecorator) (stepMethod : Context → Outcome)
    (i : Nat) (ctx : Context) : FOut Context :=
  let c := ctxSet ctx "whileCounter" (.vint (i : Int))
  let ev0 : List Ev := [.info ("while: running step with counter " ++ toString i)]
  let o := stepMethod c
  match o.err with
  | some e => ⟨ev0 ++ o.events, o.ctx, some e, false⟩
  | none =>
      match wd.stop with
      | none => ⟨ev0 ++ o.events, o.ctx, none, false⟩
      | some s => ⟨ev0 ++ o.events, o.ctx, none, getFormattedAsBool o.ctx s⟩

/-- The exhaustion message when both `stop` and `max` are truthy unresolved:
the unresolved `stop` is rendered verbatim. -/
def whileExhaustMsg (m : Int) (stopv : Val) : String :=
  "while loop reached " ++ toString m ++ " and " ++ renderVal stopv ++
    " never evaluated to True."

/-- Modelled from the spec: `WhileDecorator.while_loop` (not in the source
tree; behaviour pinned by `dsl_test.py`).  Initializes `whileCounter` to 0,
validates that at least one of `stop`/`max` is set, resolves `error_on_max`,
`sleep` and `max`, short-circuits when a truthy unresolved `stop` already
resolves true before the first iteration, then runs the body through
`while_until_true`.  On exhaustion, the log and the `LoopMaxExhaustedError`
message mention the unresolved `stop` expression only when the unresolved
`stop` is truthy (`if self.stop and max:`), which is what
`test_while_exhausts_hard_true` pins for a literal `stop: False`.
`unboundedFuel` is the recursion budget used only when the loop is unbounded.
The initial `while decorator will loop ...` log interpolates the float
`sleep`, so it is modelled as the structured `whileSummary` event. -/
def while_loop (wd : WhileDecorator) (unboundedFuel : Nat) (ctx : Context)
    (stepMethod : Context → Outcome) : Outcome :=
  let ctx0 := ctxSet ctx "whileCounter" (.vint 0)
  if wd.stop = none ∧ wd.max = none then
    ⟨[], ctx0, some (.pipelineDefinition
        "the while decorator must have either max or stop, or both. But not neither.")⟩
  else
    let errorOnMax := getFormattedAsBool ctx0 wd.error_on_max
    let sleepQ := getFormattedAsRat ctx0 wd.sleep
    let preStop :=
      match wd.stop with
      | some s => getFormattedAsBool ctx0 s
      | none => false
    if preStop then
      ⟨[.info ("while decorator will not loop, because the stop condition " ++
          renderVal ((wd.stop).getD .vnone) ++
          " already evaluated to True before 1st iteration.")], ctx0, none⟩
    else
      match wd.max with
      | none =>
          let summary := Ev.whileSummary none ((wd.stop).map renderVal) sleepQ
          let r := while_until_true sleepQ none unboundedFuel
                     (exec_iteration wd stepMethod) ctx0
          match r.status with
          | .raised e => ⟨summary :: r.trace, r.state, some e⟩
          | .fuelOut => ⟨summary :: r.trace, r.state, some .modelDiverge⟩
          | _ => ⟨summary :: r.trace, r.state, none⟩
      | some mv =>
          match getFormattedAsInt ctx0 mv with
          | none => ⟨[], ctx0, some (.valueError "could not cast max to int")⟩
          | some m =>
              let stopShown : Option String :=
                match wd.stop with
                | some s => if truthy s then some (renderVal s) else none
                | none => none
              let summary := Ev.whileSummary (some m) stopShown sleepQ
              let fuel := m.toNat + 1
              let r := while_until_true sleepQ (some m) fuel
                         (exec_iteration wd stepMethod) ctx0
              let stopAndMax :=
                (match wd.stop with
                 | some s => truthy s
                 | none => false) && decide (m ≠ 0)
              match r.status with
              | .raised e => ⟨summary :: r.trace, r.state, some e⟩
              | .fuelOut => ⟨summary :: r.trace, r.state, some .modelDiverge⟩
              | .found => ⟨summary :: r.trace, r.state, none⟩
              | .exhausted =>
                  if errorOnMax then
                    ⟨summary :: r.trace ++
                       [.errorL ("exhausted " ++ toString m ++
                          " iterations of while loop, and errorOnMax is True.")],
                     r.state,
                     some (.loopMaxExhausted
                       (if stopAndMax then whileExhaustMsg m ((wd.stop).getD .vnone)
                        else "while loop reached " ++ toString m ++ "."))⟩
                  else
                    ⟨summary :: r.trace ++
                       (if stopAndMax then
                          [.info ("while decorator looped " ++ toString m ++
                             " times, and " ++ renderVal ((wd.stop).getD .vnone) ++
                             " never evaluated to True.")]
                        else []),
                     r.state, none⟩

/-- A resolved plugin handle.  Module objects are opaque to the engine; the
handle is the dotted name `pypyr.moduleloader.get_module` resolved. -/
abbrev Module := String

/-- A pipeline step after construction (`pypyr.dsl.Step`): the plugin module
is already resolved, decorator fields are stored unresolved. -/
structure Step : Type where
  name : String
  module : Module
  in_parameters : Option (List (String × Val)) := none
  run_me : Val := .vbool true
  skip_me : Val := .vbool false
  swallow_me : Val := .vbool false
  foreach_items : Option Val := none
  while_decorator : Option WhileDecorator := none
deriving DecidableEq, Repr

/-- A step definition as it appears in a pipeline: a bare name or a mapping
with the recognized decorator keys. -/
inductive StepDef where
  | simple : String → StepDef
  | complex : String → Option (List (String × Val)) → Option Val → Option Val →
      Option Val → Option Val → Option WhileDecorator → StepDef
deriving DecidableEq, Repr

/-- The name of a step definition. -/
def StepDef.nameOf : StepDef → String
  | .simple n => n
  | .complex n _ _ _ _ _ _ => n

/-- Modelled from the spec: `Step.__init__` (not in the source tree).  The
plugin module is resolved through `pypyr.moduleloader.get_module` exactly once,
at construction (`test_simple_step_init_defaults` pins the single call); the
decorator fields default to run=true / skip=false / swallow=false. -/
def stepInit (sdef : StepDef) : List Ev × Step :=
  match sdef with
  | .simple n =>
      ([.debugL (n ++ " is a simple string."), .resolveModule n],
       { name := n, module := n })
  | .complex n inp runv skipv swallowv foreachv wdv =>
      ([.debugL (n ++ " is complex."), .resolveModule n],
       { name := n, module := n, in_parameters := inp,
         run_me := runv.getD (.vbool true),
         skip_me := skipv.getD (.vbool false),
         swallow_me := swallowv.getD (.vbool false),
         foreach_items := foreachv, while_decorator := wdv })

/-- External plugin code: takes the context, returns its own events, the
context it leaves behind and the exception it raises if any. -/
abbrev Plugin := Context → Outcome

/-- Modelled from the spec: `Step.invoke_step` (not in the source tree).
Invokes the resolved module entry point with the context. -/
def invoke_step (p : Plugin) (ctx : Context) : Outcome :=
  let o := p ctx
  ⟨.invoke :: o.events, o.ctx, o.err⟩

/-- Modelled from the spec: `Step.run_conditional_decorators` (not in the
source tree).  Evaluates `run`; if false, logs and skips.  Else evaluates
`skip`; if true, logs and skips.  Else invokes the plugin inside the failure
boundary: on exception, `swallow` is evaluated against the context the plugin
left behind; if true the exception is logged and swallowed, otherwise it
propagates unmodified and no `done` log is emitted. -/
def run_conditional_decorators (st : Step) (p : Plugin) (ctx : Context) : Outcome :=
  if getFormattedAsBool ctx st.run_me then
    if getFormattedAsBool ctx st.skip_me then
      ⟨[.info (st.name ++ " not running because skip is True."), .debugL "done"],
       ctx, none⟩
    else
      let o := invoke_step p ctx
      match o.err with
      | none => ⟨o.events ++ [.debugL "done"], o.ctx, none⟩
      | some e =>
          if getFormattedAsBool o.ctx st.swallow_me then
            ⟨o.events ++
               [.errorL (st.name ++
                  " Ignoring error because swallow is True for this step.\n" ++
                  e.typeName ++ ": " ++ e.msg),
                .debugL "done"],
             o.ctx, none⟩
          else ⟨o.events, o.ctx, some e⟩
  else
    ⟨[.info (st.name ++ " not running because run is False."), .debugL "done"],
     ctx, none⟩

/-- Modelled from the spec: resolution of the `foreach` expression.  The raw
value is resolved first (so a string template may produce the sequence), then
every element is resolved independently, before the loop starts.  `none` when
the resolved value is not a sequence. -/
def foreachList (ctx : Context) (v : Val) : Option (List Val) :=
  match formatVal ctx v with
  | .vlist l => some (l.map (formatVal ctx))
  | _ => none

/-- The body of the foreach loop over the already-resolved elements: set
`context[i]`, log, run the conditional decorators; an exception aborts the
remaining iterations. -/
def foreachBody (st : Step) (p : Plugin) : List Val → Context → Outcome
  | [], ctx => ⟨[], ctx, none⟩
  | it :: rest, ctx =>
      let ev0 : List Ev := [.info ("foreach: running step " ++ renderVal it)]
      let c := ctxSet ctx "i" it
      let o := run_conditional_decorators st p c
      match o.err with
      | some e => ⟨ev0 ++ o.events, o.ctx, some e⟩
      | none =>
          let r := foreachBody st p rest o.ctx
          ⟨ev0 ++ o.events ++ r.events, r.ctx, r.err⟩

/-- Modelled from the spec: `Step.foreach_loop` (not in the source tree).
Resolves the foreach expression to a sequence, logs the total iteration count
once, then runs the body per element.  A foreach value that does not resolve
to a sequence is outside the modelled scope and raises. -/
def foreach_loop (st : Step) (p : Plugin) (ctx : Context) : Outcome :=
  match foreachList ctx ((st.foreach_items).getD .vnone) with
  | some l =>
      let r := foreachBody st p l ctx
      ⟨.info ("foreach decorator will loop " ++ toString l.length ++ " times.")
         :: r.events, r.ctx, r.err⟩
  | none => ⟨[], ctx, some (.typeError "foreach did not resolve to a sequence")⟩

/-- Modelled from the spec: the dispatch on `foreach` inside `Step.run_step`.
A truthy unresolved `foreach` value enters the loop; an absent or empty one
degenerates to a single conditional invocation. -/
def foreach_or_conditional (st : Step) (p : Plugin) (ctx : Context) : Outcome :=
  if (match st.foreach_items with
      | some v => truthy v
      | none => false) then
    foreach_loop st p ctx
  else
    run_conditional_decorators st p ctx

/-- Modelled from the spec: `Step.set_step_input_context` (not in the source
tree).  Merges `in_parameters` into the context, overwriting existing keys;
absent or empty parameters leave the context unchanged. -/
def set_step_input_context (st : Step) (ctx : Context) : Context :=
  match st.in_parameters with
  | none => ctx
  | some ps => ps.foldl (fun c kv => ctxSet c kv.1 kv.2) ctx

/-- Modelled from the spec: `Step.run_step` (not in the source tree).  Merges
the input parameters, then hands the foreach-or-conditional body to the while
decorator when one is present, else runs it once. -/
def run_step (st : Step) (p : Plugin) (unboundedFuel : Nat) (ctx : Context) : Outcome :=
  let c := set_step_input_context st ctx
  match st.while_decorator with
  | some wd => while_loop wd unboundedFuel c (foreach_or_conditional st p)
  | none => foreach_or_conditional st p c

/-- A plugin that succeeds without touching the context, as the mocked
`invoke_step` of the unit tests. -/
def nopPlugin : Plugin := fun c => ⟨[], c, none⟩

/-- A plugin that raises `ValueError` with the given message, as the mocked
failing `invoke_step` of the unit tests. -/
def raisingPlugin (m : String) : Plugin := fun c => ⟨[], c, some (.valueError m)⟩

/-- What the Python import machinery does for a given dotted name: the module
imports fine, no matching module exists anywhere on the search path, or the
module exists but one of its own imports (named by the payload) cannot be
resolved. -/
inductive ImportOutcome where
  | found
  | notFound
  | brokenInner : String → ImportOutcome
deriving DecidableEq, Repr

/-- An import environment: the outcome of importing each dotted name. -/
abbrev ImportEnv := String → ImportOutcome

/-- The builtin `ModuleNotFoundError`, which carries the name of the module
that could not be found (`err.name`). -/
structure ModNotFoundExc : Type where
  name : String
deriving DecidableEq, Repr

/-- `importlib.import_module` against an import environment: the raised
`ModuleNotFoundError` names the requested module when it does not exist, and
names the inner unresolvable import when the requested module itself fails to
load. -/
def import_module (env : ImportEnv) (name : String) : Except ModNotFoundExc Module :=
  match env name with
  | .found => .ok name
  | .notFound => .error ⟨name⟩
  | .brokenInner inner => .error ⟨inner⟩

/-- The dedicated not-found message of `pypyr.moduleloader.get_module`,
explaining both the working-directory and the installed-package resolution
paths (exact text pinned by `test_get_module_raises`). -/
def moduleNotFoundMsg (name : String) : String :=
  name ++ ".py should be in your working dir or it should be installed " ++
  "to the python path." ++
  "\nIf you have " ++ sq ++ "package.sub.mod" ++ sq ++ " your current working " ++
  "dir should contain ./package/sub/mod.py\n" ++
  "If you specified " ++ sq ++ "mymodulename" ++ sq ++ ", your current " ++
  "working dir should contain ./mymodulename.py\n" ++
  "If the module is not in your current working dir, it " ++
  "must exist in your current python path - so you " ++
  "should have run pip install or setup.py"

/-- Modelled from the spec: `pypyr.moduleloader.get_module` (not in the source
tree).  Imports the module; on `ModuleNotFoundError` it distinguishes the
module itself being missing (`err.name == name`) from an inner import of the
module failing, and raises `PyModuleNotFoundError` with the matching
message. -/
def get_module (env : ImportEnv) (name : String) : Except PyErr Module :=
  match import_module env name with
  | .ok m => .ok m
  | .error e =>
      if e.name = name then
        .error (.pyModuleNotFound (moduleNotFoundMsg name))
      else
        .error (.pyModuleNotFound
          ("error importing module " ++ e.name ++ " in " ++ name))

/-- The Python exception classes relevant to the engine. -/
inductive PyClass where
  | exceptionC
  | importErrorC
  | moduleNotFoundErrorC
  | pypyrErrorC
  | pyModuleNotFoundErrorC
  | pipelineDefinitionErrorC
  | loopMaxExhaustedErrorC
  | valueErrorC
  | typeErrorC
  | attributeErrorC
  | arbC
deriving DecidableEq, Repr

/-- Modelled from the spec: the direct base classes declared in
`pypyr.errors` (not in the source tree) and the relevant builtin hierarchy;
`test_get_module_raises_compatible_error` pins that `PyModuleNotFoundError`
derives from the builtin `ModuleNotFoundError`. -/
def directBases : PyClass → List PyClass
  | .exceptionC => []
  | .importErrorC => [.exceptionC]
  | .moduleNotFoundErrorC => [.importErrorC]
  | .pypyrErrorC => [.exceptionC]
  | .pyModuleNotFoundErrorC => [.pypyrErrorC, .moduleNotFoundErrorC]
  | .pipelineDefinitionErrorC => [.pypyrErrorC]
  | .loopMaxExhaustedErrorC => [.pypyrErrorC]
  | .valueErrorC => [.exceptionC]
  | .typeErrorC => [.exceptionC]
  | .attributeErrorC => [.exceptionC]
  | .arbC => [.exceptionC]

/-- Reflexive-transitive subclass test, with a recursion budget that exceeds
the height of the hierarchy. -/
def isSubclassF : Nat → PyClass → PyClass → Bool
  | 0, _, _ => false
  | fuel + 1, c, d => c = d || (directBases c).any (fun b => isSubclassF fuel b d)

/-- `issubclass(c, d)` over the modelled hierarchy. -/
def isSubclass (c d : PyClass) : Bool := isSubclassF 8 c d

/-- The class of a raised exception. -/
def errClass : PyErr → PyClass
  | .pipelineDefinition _ => .pipelineDefinitionErrorC
  | .loopMaxExhausted _ => .loopMaxExhaustedErrorC
  | .pyModuleNotFound _ => .pyModuleNotFoundErrorC
  | .valueError _ => .valueErrorC
  | .typeError _ => .typeErrorC
  | .attributeError _ => .attributeErrorC
  | .arb _ _ => .arbC
  | .modelDiverge => .arbC

/-- `except Handler:` catches a raised exception iff the exception class is a
subclass of the handler class. -/
def catches (handler : PyClass) (e : PyErr) : Bool :=
  isSubclass (errClass e) handler

/-- Modelled from the spec: the working-directory registry
(`pypyr.moduleloader.WorkingDir`, not in the source tree): one logical slot,
unset until first write. -/
structure WorkingDir : Type where
  wd : Option String := none
deriving DecidableEq, Repr

/-- Modelled from the spec: `WorkingDir.set_working_directory` (not in the
source tree).  A missing path argument and an explicit `None` both take the
default: the process current directory.  The chosen directory is stored and
appended to the module search path. -/
def set_working_directory (_w : WorkingDir) (sysPath : List String) (cwd : String)
    (p : Option String) : WorkingDir × List String :=
  let dir := p.getD cwd
  (⟨some dir⟩, sysPath ++ [dir])

/-- Modelled from the spec: `WorkingDir.get_working_directory` (not in the
source tree).  Reading before the registry is initialized raises
`ValueError("working directory not set.")`. -/
def get_working_directory (w : WorkingDir) : Except PyErr String :=
  match w.wd with
  | none => .error (.valueError "working directory not set.")
  | some d => .ok d

/-- One statement of an import-only source fragment, with dotted names as
segment lists. -/
inductive ImportStmt where
  | imp : List String → Option String → ImportStmt
  | impFrom : List String → String → Option String → ImportStmt
  | impFromRel : String → ImportStmt
deriving DecidableEq, Repr

/-- The namespace builder state: the registry of module paths the fragment
imported so far (Python `sys.modules`, restricted to this fragment, with each
loaded submodule linked into its parent as an attribute), and the namespace
bindings, each naming the module or attribute object it is bound to by its
dotted path. -/
structure NsState : Type where
  registry : List (List String)
  ns : List (String × List String)
deriving DecidableEq, Repr

/-- The nonempty prefixes of a dotted path: importing `a.b.c` loads `a`,
`a.b` and `a.b.c`. -/
def prefixesOf (d : List String) : List (List String) :=
  (List.range d.length).map (fun k => d.take (k + 1))

/-- Record an import in the registry, without duplicating entries. -/
def addToRegistry (reg : List (List String)) (d : List String) : List (List String) :=
  reg ++ (prefixesOf d).filter (fun p => ¬ p ∈ reg)

/-- Modelled from the spec: one visit step of
`pypyr.moduleloader.ImportVisitor` (not in the source tree).  A non-aliased
`import a.b.c` performs the real import and binds only the top-level name,
reusing an existing binding for the same root; an aliased import binds the
alias to the leaf module; a from-import binds the attribute name or its
alias; a relative import is rejected with a dedicated `TypeError`. -/
def visitStmt (st : NsState) : ImportStmt → Except PyErr NsState
  | .imp d none =>
      let reg := addToRegistry st.registry d
      let root := d.headD ""
      if st.ns.any (fun b => b.1 = root) then .ok ⟨reg, st.ns⟩
      else .ok ⟨reg, st.ns ++ [(root, [root])]⟩
  | .imp d (some a) =>
      .ok ⟨addToRegistry st.registry d, st.ns ++ [(a, d)]⟩
  | .impFrom m attr al =>
      .ok ⟨addToRegistry st.registry m, st.ns ++ [(al.getD attr, m ++ [attr])]⟩
  | .impFromRel _ =>
      .error (.typeError ("you can" ++ sq ++ "t use relative imports here. " ++
        "use absolute imports instead."))

/-- Modelled from the spec: `ImportVisitor.get_namespace` (not in the source
tree): fold the visitor over the fragment starting from an empty namespace. -/
def get_namespace (stmts : List ImportStmt) : Except PyErr NsState :=
  stmts.foldlM visitStmt ⟨[], []⟩

/-- Attribute access from a namespace binding: `ns[name].r₁.r₂...` reaches an
object iff the bound path extended by the attribute chain consists of loaded
modules at every prefix step. -/
def accessible (st : NsState) (name : String) (rest : List String) : Bool :=
  match st.ns.find? (fun b => b.1 = name) with
  | none => false
  | some b => (prefixesOf (b.2 ++ rest)).all (fun p => p ∈ st.registry)

theorem formatVal_of_ne_vstr (ctx : Context) (v : Val) (h : ∀ s, v ≠ .vstr s) :
    formatVal ctx v = v := by
  cases v <;> simp [formatVal] at h ⊢

theorem ctxGet_ctxSet_self (c : Context) (k : String) (v : Val) :
    ctxGet (ctxSet c k v) k = some v := by
  induction c with
  | nil => simp [ctxSet, ctxGet]
  | cons kv rest ih =>
      by_cases hk : kv.1 = k
      · simp [ctxSet, ctxGet, hk]
      · simp [ctxSet, ctxGet, hk, ih]

theorem ctxSet_ctxSet (c : Context) (k : String) (a b : Val) :
    ctxSet (ctxSet c k a) k b = ctxSet c k b := by
  induction c with
  | nil => simp [ctxSet]
  | cons kv rest ih =>
      by_cases hk : kv.1 = k
      · simp [ctxSet, hk]
      · simp [ctxSet, hk, ih]

/--
C1.  For every decorator flag among `run`, `skip`, `swallow` and
`error_on_max`, evaluation resolves a string-template against the context
first and then coerces the resolved value: a native boolean passes through
unchanged, a numeric value is truthy iff it is nonzero (so 1, 99 and -1 are
truthy and 0 is falsy), and a string is truthy iff it case-insensitively
equals "true" (so the resolved value "value1" is falsy).  All four flags are
evaluated by `getFormattedAsBool`: the last five conjuncts exercise it
through the `run`, `skip`, `swallow` and `error_on_max` evaluation sites of
the step engine.
-/
theorem C1_flag_boolean_coercion :
    (∀ (ctx : Context) (v : Val) (b : Bool), formatVal ctx v = .vbool b →
        getFormattedAsBool ctx v = b)
    ∧ (∀ (ctx : Context) (v : Val) (n : Int), formatVal ctx v = .vint n →
        getFormattedAsBool ctx v = decide (n ≠ 0))
    ∧ (∀ (ctx : Context) (v : Val) (r : String), formatVal ctx v = .vstr r →
        getFormattedAsBool ctx v = (strToLower r == "true"))
    ∧ getFormattedAsBool testCtx (.vint 1) = true
    ∧ getFormattedAsBool testCtx (.vint 99) = true
    ∧ getFormattedAsBool testCtx (.vint (-1)) = true
    ∧ getFormattedAsBool testCtx (.vint 0) = false
    ∧ getFormattedAsBool testCtx (.vstr "{key1}") = false
    ∧ (run_step { name := "step1", module := "step1", run_me := .vstr "{key1}" }
         nopPlugin 0 testCtx).events
        = [.info "step1 not running because run is False.", .debugL "done"]
    ∧ (run_step { name := "step1", module := "step1", run_me := .vint (-1) }
         nopPlugin 0 testCtx).events = [.invoke, .debugL "done"]
    ∧ (run_step { name := "step1", module := "step1", skip_me := .vstr "TRUE" }
         nopPlugin 0 testCtx).events
        = [.info "step1 not running because skip is True.", .debugL "done"]
    ∧ (run_conditional_decorators { name := "step1", module := "m", swallow_me := .vint 1 }
         (raisingPlugin "arb error here") testCtx).err = none
    ∧ (while_loop { stop := none, max := some (.vint 1), error_on_max := .vstr "{key6}" }
         0 testCtx nopPlugin).err = some (.loopMaxExhausted "while loop reached 1.") := by
  refine ⟨?_, ?_, ?_, by decide, by decide, by decide, by decide, by decide,
    by decide, by decide, by decide, by decide, by decide⟩
  · intro ctx v b h
    cases v with
    | vstr s => simp [getFormattedAsBool, h, truthy]
    | vbool x => simp [formatVal] at h; simp [getFormattedAsBool, truthy, h]
    | vint n => simp [formatVal] at h
    | vlist l => simp [formatVal] at h
    | vnone => simp [formatVal] at h
  · intro ctx v n h
    cases v with
    | vstr s => simp [getFormattedAsBool, h, truthy]
    | vbool x => simp [formatVal] at h
    | vint m => simp [formatVal] at h; simp [getFormattedAsBool, truthy, h]
    | vlist l => simp [formatVal] at h
    | vnone => simp [formatVal] at h
  · intro ctx v r h
    cases v with
    | vstr s => simp [getFormattedAsBool, h]
    | vbool x => simp [formatVal] at h
    | vint m => simp [formatVal] at h
    | vlist l => simp [formatVal] at h
    | vnone => simp [formatVal] at h

/--
Witness for C1: the coercion properties applied at concrete inputs — a
template resolving to a boolean passes it through, a template resolving to
the number 77 is truthy, and the plain string "false" is falsy.
-/
theorem C1_flag_boolean_coercion_witness :
    getFormattedAsBool testCtx (.vstr "{key6}") = true
    ∧ getFormattedAsBool testCtx (.vstr "{key7}") = true
    ∧ getFormattedAsBool testCtx (.vstr "false") = false :=
  ⟨C1_flag_boolean_coercion.1 testCtx (.vstr "{key6}") true (by decide),
   (C1_flag_boolean_coercion.2.1 testCtx (.vstr "{key7}") 77 (by decide)).trans
     (by decide),
   (C1_flag_boolean_coercion.2.2.1 testCtx (.vstr "false") "false" (by decide)).trans
     (by decide)⟩

/--
C3.  For every step whose plugin invocation raises an exception, the
exception propagates unmodified to the caller if and only if `swallow`
resolves false (which is what the default resolves to when `swallow` is
absent); when `swallow` resolves true the step logs
"`{name}` Ignoring error because swallow is True for this step.\n
`{ExceptionType}`: `{message}`" followed by a "done" log and does not
propagate; when it resolves false no "done" log is emitted.
-/
theorem C3_swallow_failure_boundary
    (nm : String) (md : Module) (runv skipv swv : Val) (ctx c1 : Context)
    (ev : List Ev) (e : PyErr) (p : Plugin)
    (hrun : getFormattedAsBool ctx runv = true)
    (hskip : getFormattedAsBool ctx skipv = false)
    (hp : p ctx = ⟨ev, c1, some e⟩) :
    ((run_conditional_decorators
        { name := nm, module := md, run_me := runv, skip_me := skipv, swallow_me := swv }
        p ctx).err = some e ↔ getFormattedAsBool c1 swv = false)
    ∧ (getFormattedAsBool c1 swv = true →
        run_conditional_decorators
            { name := nm, module := md, run_me := runv, skip_me := skipv,
              swallow_me := swv } p ctx =
          ⟨.invoke :: ev ++
             [.errorL (nm ++ " Ignoring error because swallow is True for this step.\n"
                ++ e.typeName ++ ": " ++ e.msg),
              .debugL "done"], c1, none⟩)
    ∧ (getFormattedAsBool c1 swv = false →
        run_conditional_decorators
            { name := nm, module := md, run_me := runv, skip_me := skipv,
              swallow_me := swv } p ctx = ⟨.invoke :: ev, c1, some e⟩)
    ∧ (stepInit (.complex nm none none none none none none)).2.swallow_me = .vbool false
    ∧ getFormattedAsBool c1 (.vbool false) = false := by
  refine ⟨?_, ?_, ?_, by simp [stepInit], by simp [getFormattedAsBool, truthy]⟩
  · simp only [run_conditional_decorators, invoke_step, hrun, hskip, hp, if_true,
      Bool.false_eq_true, if_false]
    by_cases hsw : getFormattedAsBool c1 swv = true
    · simp [hsw]
    · simp at hsw
      simp [hsw]
  · intro hsw
    simp [run_conditional_decorators, invoke_step, hrun, hskip, hp, hsw]
  · intro hsw
    simp [run_conditional_decorators, invoke_step, hrun, hskip, hp, hsw]

/--
Witness for C3: a step with `swallow: 1` and a plugin raising
`ValueError("arb error here")` logs the error and a "done" log and swallows
the exception.
-/
theorem C3_swallow_failure_boundary_witness :
    run_conditional_decorators
        { name := "step1", module := "m", run_me := .vbool true,
          skip_me := .vbool false, swallow_me := .vint 1 }
        (raisingPlugin "arb error here") testCtx =
      ⟨[.invoke,
        .errorL ("step1 Ignoring error because swallow is True for this step.\n"
          ++ "ValueError" ++ ": " ++ "arb error here"),
        .debugL "done"], testCtx, none⟩ := by
  have h := C3_swallow_failure_boundary "step1" "m" (.vbool true) (.vbool false)
    (.vint 1) testCtx testCtx [] (.valueError "arb error here")
    (raisingPlugin "arb error here") (by decide) (by decide) rfl
  exact (h.2.1 (by decide)).trans (by decide)

/-- An import environment in which `arbpack.arbinvalidimportmod` exists but
fails to load because its own `import blahblah` cannot be resolved, as in
`test_get_module_raises_on_inner_import`. -/
def envBrokenInner : ImportEnv := fun n =>
  if n = "arbpack.arbinvalidimportmod" then .brokenInner "blahblah" else .notFound

/--
C5.  `get_module` distinguishes its two failure modes: a name with no
matching file or installed module fails with the dedicated module-not-found
error whose message explains both the working-directory and the
installed-package resolution paths, while a module that exists but fails to
load because one of its own imports is unresolvable propagates a distinct
error naming the inner failing import and the outer module, and never
carries the module-not-found message (the realistic side condition is that
the inner failing import is not the requested module itself).
-/
theorem C5_get_module_failure_modes :
    (∀ (env : ImportEnv) (name : String), env name = .notFound →
        get_module env name = .error (.pyModuleNotFound (moduleNotFoundMsg name)))
    ∧ (∀ (env : ImportEnv) (name inner : String), inner ≠ name →
        env name = .brokenInner inner →
        get_module env name = .error (.pyModuleNotFound
          ("error importing module " ++ inner ++ " in " ++ name)))
    ∧ get_module envBrokenInner "arbpack.arbinvalidimportmod"
        = .error (.pyModuleNotFound
            "error importing module blahblah in arbpack.arbinvalidimportmod")
    ∧ "error importing module blahblah in arbpack.arbinvalidimportmod"
        ≠ moduleNotFoundMsg "arbpack.arbinvalidimportmod" := by
  refine ⟨?_, ?_, by rfl, by decide⟩
  · intro env name h
    simp [get_module, import_module, h]
  · intro env name inner hne h
    simp [get_module, import_module, h, hne]

/--
Witness for C5: the two failure modes at concrete inputs — a module that does
not exist anywhere yields the long friendly message; the broken module yields
the inner-import message.
-/
theorem C5_get_module_failure_modes_witness :
    get_module envBrokenInner "unlikelyblahmodulenameherexxssz"
      = .error (.pyModuleNotFound (moduleNotFoundMsg "unlikelyblahmodulenameherexxssz"))
    ∧ get_module envBrokenInner "arbpack.arbinvalidimportmod"
      = .error (.pyModuleNotFound
          "error importing module blahblah in arbpack.arbinvalidimportmod") :=
  ⟨C5_get_module_failure_modes.1 envBrokenInner "unlikelyblahmodulenameherexxssz"
     (by decide),
   (C5_get_module_failure_modes.2.1 envBrokenInner "arbpack.arbinvalidimportmod"
     "blahblah" (by decide) (by decide))⟩

/--
C9.  The module-not-found error raised by `get_module` for a nonexistent
module name is catchable as the standard `ModuleNotFoundError`: the raised
`PyModuleNotFoundError` is an instance of `ModuleNotFoundError`, so a host
handler for `ModuleNotFoundError` catches it.
-/
theorem C9_pymodulenotfound_is_modulenotfound :
    (∀ (env : ImportEnv) (name : String), env name = .notFound →
        ∃ m, get_module env name = .error (.pyModuleNotFound m)
          ∧ errClass (.pyModuleNotFound m) = .pyModuleNotFoundErrorC
          ∧ catches .moduleNotFoundErrorC (.pyModuleNotFound m) = true)
    ∧ isSubclass .pyModuleNotFoundErrorC .moduleNotFoundErrorC = true := by
  refine ⟨?_, by decide⟩
  intro env name h
  exact ⟨moduleNotFoundMsg name, by simp [get_module, import_module, h], rfl, rfl⟩

/--
Witness for C9: the concrete nonexistent module of `test_get_module_raises`
raises an error caught by a `ModuleNotFoundError` handler.
-/
theorem C9_pymodulenotfound_is_modulenotfound_witness :
    ∃ m, get_module envBrokenInner "unlikelyblahmodulenameherexxssz"
        = .error (.pyModuleNotFound m)
      ∧ errClass (.pyModuleNotFound m) = .pyModuleNotFoundErrorC
      ∧ catches .moduleNotFoundErrorC (.pyModuleNotFound m) = true :=
  C9_pymodulenotfound_is_modulenotfound.1 envBrokenInner
    "unlikelyblahmodulenameherexxssz" (by decide)

/--
C10.  Calling `set_working_directory` with no path argument — which in the
model is the explicit `none` that both the missing argument and an explicit
`None` denote — sets the working directory to the process current directory
and appends it to the module search path, after which
`get_working_directory` returns the current directory rather than raising
the not-set error.
-/
theorem C10_set_working_directory_default (w0 : WorkingDir) (sysPath : List String)
    (cwd : String) :
    get_working_directory (set_working_directory w0 sysPath cwd none).1 = .ok cwd
    ∧ cwd ∈ (set_working_directory w0 sysPath cwd none).2
    ∧ get_working_directory ⟨none⟩
        = .error (.valueError "working directory not set.") := by
  refine ⟨rfl, ?_, rfl⟩
  simp [set_working_directory]

theorem pollGo_step_false {σ : Type} {interval : ℚ} {m : Int} {g : Nat → σ → FOut σ}
    {i fuel : Nat} {s s1 : σ} {ev : List Ev}
    (hg : g i s = ⟨ev, s1, none, false⟩) (hlt : (i : Int) < m) :
    pollGo interval (some m) g (fuel + 1) i s =
      ⟨.pollCall i :: ev ++
         [.debugL ("iteration " ++ toString i ++ ". Still waiting. . ."),
          .sleepE interval] ++ (pollGo interval (some m) g fuel (i + 1) s1).trace,
       (pollGo interval (some m) g fuel (i + 1) s1).attempts + 1,
       (pollGo interval (some m) g fuel (i + 1) s1).state,
       (pollGo interval (some m) g fuel (i + 1) s1).status⟩ := by
  simp [pollGo, hg, hlt]

theorem pollGo_step_true {σ : Type} {interval : ℚ} {ma : Option Int}
    {g : Nat → σ → FOut σ} {i fuel : Nat} {s s1 : σ} {ev : List Ev}
    (hg : g i s = ⟨ev, s1, none, true⟩) :
    pollGo interval ma g (fuel + 1) i s =
      ⟨.pollCall i :: ev ++
         [.debugL ("iteration " ++ toString i ++ ". Desired state reached.")],
       1, s1, .found⟩ := by
  simp [pollGo, hg]

theorem pollGo_step_exhaust {σ : Type} {interval : ℚ} {m : Int}
    {g : Nat → σ → FOut σ} {i fuel : Nat} {s s1 : σ} {ev : List Ev}
    (hg : g i s = ⟨ev, s1, none, false⟩) (hge : ¬ (i : Int) < m) :
    pollGo interval (some m) g (fuel + 1) i s =
      ⟨.pollCall i :: ev ++
         [.debugL ("iteration " ++ toString i ++ ". Max attempts exhausted.")],
       1, s1, .exhausted⟩ := by
  simp [pollGo, hg, hge]

/-- A boolean predicate threaded through `while_until_true`: no events, no
exception, the counter injected as the first argument. -/
def asPollBody {σ : Type} (f : Nat → σ → σ × Bool) : Nat → σ → FOut σ :=
  fun i t => ⟨[], (f i t).1, none, (f i t).2⟩

/-- The poll interval 0.01 seconds of the claimed scenario. -/
def centi : ℚ := 1 / 100

/--
C6.  For `while_until_true(interval=0.01, max_attempts=10)` wrapping a
predicate that first returns true on its 4th call, the wrapped call returns
true, the predicate is called exactly 4 times with the 1-based attempt
counter injected as its first argument on every call, and sleep happens
exactly 3 times with argument 0.01 (`centi`) — never before the first call
and never after the terminating call (the full trace is computed
explicitly).
-/
theorem C6_while_until_true_fourth_call {σ : Type} (f : Nat → σ → σ × Bool) (s : σ)
    (h1 : ∀ t, (f 1 t).2 = false) (h2 : ∀ t, (f 2 t).2 = false)
    (h3 : ∀ t, (f 3 t).2 = false) (h4 : ∀ t, (f 4 t).2 = true) :
    (while_until_true centi (some 10) 10 (asPollBody f) s).retval = true
    ∧ (while_until_true centi (some 10) 10 (asPollBody f) s).attempts = 4
    ∧ (while_until_true centi (some 10) 10 (asPollBody f) s).trace =
        [.debugL "started", .loopSummary centi (some 10),
         .pollCall 1, .debugL "iteration 1. Still waiting. . .", .sleepE centi,
         .pollCall 2, .debugL "iteration 2. Still waiting. . .", .sleepE centi,
         .pollCall 3, .debugL "iteration 3. Still waiting. . .", .sleepE centi,
         .pollCall 4, .debugL "iteration 4. Desired state reached.",
         .debugL "done"] := by
  have hb1 : ∀ t, asPollBody f 1 t = ⟨[], (f 1 t).1, none, false⟩ := by
    intro t; simp [asPollBody, h1 t]
  have hb2 : ∀ t, asPollBody f 2 t = ⟨[], (f 2 t).1, none, false⟩ := by
    intro t; simp [asPollBody, h2 t]
  have hb3 : ∀ t, asPollBody f 3 t = ⟨[], (f 3 t).1, none, false⟩ := by
    intro t; simp [asPollBody, h3 t]
  have hb4 : ∀ t, asPollBody f 4 t = ⟨[], (f 4 t).1, none, true⟩ := by
    intro t; simp [asPollBody, h4 t]
  have e10 : (10 : Nat) = 9 + 1 := rfl
  have e9 : (9 : Nat) = 8 + 1 := rfl
  have e8 : (8 : Nat) = 7 + 1 := rfl
  have e7 : (7 : Nat) = 6 + 1 := rfl
  have hrun : pollGo centi (some 10) (asPollBody f) 10 1 s =
      ⟨[.pollCall 1, .debugL "iteration 1. Still waiting. . .", .sleepE centi,
        .pollCall 2, .debugL "iteration 2. Still waiting. . .", .sleepE centi,
        .pollCall 3, .debugL "iteration 3. Still waiting. . .", .sleepE centi,
        .pollCall 4, .debugL "iteration 4. Desired state reached."],
       4, (f 4 ((f 3 ((f 2 ((f 1 s).1)).1)).1)).1, .found⟩ := by
    rw [e10, pollGo_step_false (hb1 s) (by norm_num)]
    rw [e9, pollGo_step_false (hb2 ((f 1 s).1)) (by norm_num)]
    rw [e8, pollGo_step_false (hb3 ((f 2 ((f 1 s).1)).1)) (by norm_num)]
    rw [e7, pollGo_step_true (hb4 ((f 3 ((f 2 ((f 1 s).1)).1)).1))]
    simp
    decide
  refine ⟨?_, ?_, ?_⟩
  · simp [while_until_true, hrun, PollRes.retval]
  · simp [while_until_true, hrun]
  · simp [while_until_true, hrun]

/--
Witness for C6: the concrete predicate that is true exactly on its 4th call.
-/
theorem C6_while_until_true_fourth_call_witness :
    (while_until_true centi (some 10) 10
        (asPollBody (fun i (t : Unit) => (t, decide (i = 4)))) ()).retval = true
    ∧ (while_until_true centi (some 10) 10
        (asPollBody (fun i (t : Unit) => (t, decide (i = 4)))) ()).attempts = 4 := by
  have h := C6_while_until_true_fourth_call (fun i (t : Unit) => (t, decide (i = 4))) ()
    (by intro t; cases t; decide) (by intro t; cases t; decide)
    (by intro t; cases t; decide) (by intro t; cases t; decide)
  exact ⟨h.1, h.2.1⟩

theorem pollGo_exhaust_count {σ : Type} (interval : ℚ) (mN : Nat)
    (g : Nat → σ → FOut σ) (gev : Nat → σ → List Ev) (gst : Nat → σ → σ)
    (hg : ∀ i t, g i t = ⟨gev i t, gst i t, none, false⟩)
    (hnc : ∀ i t, (gev i t).countP isPollCall = 0) :
    ∀ (fuel i : Nat) (s : σ), 1 ≤ i → i ≤ mN → mN < i + fuel →
      (pollGo interval (some (mN : Int)) g fuel i s).status = .exhausted
      ∧ (pollGo interval (some (mN : Int)) g fuel i s).trace.countP isPollCall
          = mN - i + 1
      ∧ (pollGo interval (some (mN : Int)) g fuel i s).attempts = mN - i + 1 := by
  intro fuel
  induction fuel with
  | zero => intro i s _ h2 h3; omega
  | succ fuel ih =>
      intro i s h1 h2 h3
      by_cases hlt : (i : Int) < (mN : Int)
      · have hi : i < mN := by exact_mod_cast hlt
        rw [pollGo_step_false (hg i s) hlt]
        obtain ⟨hst, hcnt, hat⟩ := ih (i + 1) (gst i s) (by omega) (by omega) (by omega)
        refine ⟨hst, ?_, ?_⟩
        · simp only [List.countP_cons, List.countP_append, isPollCall, hnc, hcnt]
          simp [isPollCall]
          omega
        · simp only [hat]
          omega
      · have hi : i = mN := by
          have : ¬ i < mN := fun hc => hlt (by exact_mod_cast hc)
          omega
        rw [pollGo_step_exhaust (hg i s) hlt]
        subst hi
        refine ⟨rfl, ?_, by simp⟩
        simp [List.countP_cons, List.countP_append, isPollCall, hnc]

/-- A body for the while decorator that emits no events, never raises, and
transforms the context by `f` — the shape of a mocked step method. -/
def asWhileBody (f : Context → Context) : Context → Outcome :=
  fun c => ⟨[], f c, none⟩

/--
C2 (amended).  For every WhileDecorator constructed with both `stop` and
`max` set, a truthy unresolved `stop` (e.g. a template string), and
`error_on_max` resolving true, if the body runs `max` times without `stop`
ever resolving true, `while_loop` raises `LoopMaxExhaustedError` with
message "while loop reached {max} and {stop_repr} never evaluated to True."
after exactly `max` body invocations, where `{stop_repr}` is the unresolved
original stop expression (never the resolved runtime value).  (The claim as
frozen — without the truthiness requirement on the unresolved `stop` — is
false: a literal `stop: False` produces "while loop reached {max}.", see the
counterexample.)
-/
theorem C2_while_exhaust_message (stopv maxv eomv sleepv : Val) (ctx : Context)
    (f : Context → Context) (mN : Nat)
    (hst : truthy stopv = true)
    (hm1 : 1 ≤ mN)
    (hmax : getFormattedAsInt (ctxSet ctx "whileCounter" (.vint 0)) maxv
        = some (mN : Int))
    (heom : getFormattedAsBool (ctxSet ctx "whileCounter" (.vint 0)) eomv = true)
    (hstop0 : getFormattedAsBool (ctxSet ctx "whileCounter" (.vint 0)) stopv = false)
    (hstop : ∀ c, getFormattedAsBool (f c) stopv = false) :
    (while_loop ⟨some stopv, some maxv, sleepv, eomv⟩ 0 ctx (asWhileBody f)).err
        = some (.loopMaxExhausted (whileExhaustMsg (mN : Int) stopv))
    ∧ (while_loop ⟨some stopv, some maxv, sleepv, eomv⟩ 0 ctx
        (asWhileBody f)).events.countP isPollCall = mN := by
  have hg : ∀ i t, exec_iteration ⟨some stopv, some maxv, sleepv, eomv⟩
      (asWhileBody f) i t =
        ⟨[.info ("while: running step with counter " ++ toString i)],
         f (ctxSet t "whileCounter" (.vint (i : Int))), none, false⟩ := by
    intro i t
    simp [exec_iteration, asWhileBody, hstop]
  have hnc : ∀ (i : Nat) (t : Context),
      ([Ev.info ("while: running step with counter " ++ toString i)]).countP
        isPollCall = 0 := by
    intro i t
    simp [isPollCall]
  have hpoll := pollGo_exhaust_count (getFormattedAsRat
      (ctxSet ctx "whileCounter" (.vint 0)) sleepv) mN
    (exec_iteration ⟨some stopv, some maxv, sleepv, eomv⟩ (asWhileBody f))
    (fun i _ => [Ev.info ("while: running step with counter " ++ toString i)])
    (fun i t => f (ctxSet t "whileCounter" (.vint (i : Int)))) hg hnc
    ((mN : Int).toNat + 1) 1 (ctxSet ctx "whileCounter" (.vint 0))
    (le_refl 1) hm1 (by simp; omega)
  obtain ⟨hstat, hcnt, hatt⟩ := hpoll
  have hmz : ¬ ((mN : Int) = 0) := by omega
  have hneither : ¬ ((some stopv = none) ∧ (some maxv = none)) := by simp
  have hnorm : while_until_true
      (getFormattedAsRat (ctxSet ctx "whileCounter" (.vint 0)) sleepv)
      (some (mN : Int)) ((mN : Int).toNat + 1)
      (exec_iteration ⟨some stopv, some maxv, sleepv, eomv⟩ (asWhileBody f))
      (ctxSet ctx "whileCounter" (.vint 0))
      = ⟨[.debugL "started",
          .loopSummary (getFormattedAsRat (ctxSet ctx "whileCounter" (.vint 0)) sleepv)
            (some (mN : Int))] ++
           (pollGo (getFormattedAsRat (ctxSet ctx "whileCounter" (.vint 0)) sleepv)
             (some (mN : Int))
             (exec_iteration ⟨some stopv, some maxv, sleepv, eomv⟩ (asWhileBody f))
             ((mN : Int).toNat + 1) 1 (ctxSet ctx "whileCounter" (.vint 0))).trace ++
           [.debugL "done"],
         mN,
         (pollGo (getFormattedAsRat (ctxSet ctx "whileCounter" (.vint 0)) sleepv)
           (some (mN : Int))
           (exec_iteration ⟨some stopv, some maxv, sleepv, eomv⟩ (asWhileBody f))
           ((mN : Int).toNat + 1) 1 (ctxSet ctx "whileCounter" (.vint 0))).state,
         .exhausted⟩ := by
    simp only [while_until_true]
    rw [if_neg hmz, hstat, hatt]
    have : mN - 1 + 1 = mN := by omega
    rw [this]
  have hwl : while_loop ⟨some stopv, some maxv, sleepv, eomv⟩ 0 ctx (asWhileBody f)
      = ⟨.whileSummary (some (mN : Int)) (some (renderVal stopv))
            (getFormattedAsRat (ctxSet ctx "whileCounter" (.vint 0)) sleepv) ::
          ([.debugL "started",
            .loopSummary (getFormattedAsRat (ctxSet ctx "whileCounter" (.vint 0)) sleepv)
              (some (mN : Int))] ++
            (pollGo (getFormattedAsRat (ctxSet ctx "whileCounter" (.vint 0)) sleepv)
              (some (mN : Int))
              (exec_iteration ⟨some stopv, some maxv, sleepv, eomv⟩ (asWhileBody f))
              ((mN : Int).toNat + 1) 1 (ctxSet ctx "whileCounter" (.vint 0))).trace ++
            [.debugL "done"]) ++
          [.errorL ("exhausted " ++ toString (mN : Int) ++
             " iterations of while loop, and errorOnMax is True.")],
         (pollGo (getFormattedAsRat (ctxSet ctx "whileCounter" (.vint 0)) sleepv)
           (some (mN : Int))
           (exec_iteration ⟨some stopv, some maxv, sleepv, eomv⟩ (asWhileBody f))
           ((mN : Int).toNat + 1) 1 (ctxSet ctx "whileCounter" (.vint 0))).state,
         some (.loopMaxExhausted (whileExhaustMsg (mN : Int) stopv))⟩ := by
    simp only [while_loop]
    rw [if_neg hneither]
    simp only [hstop0, Bool.false_eq_true, if_false]
    rw [hmax]
    simp only [hst, if_true, heom]
    rw [hnorm]
    simp [hmz]
  rw [hwl]
  refine ⟨rfl, ?_⟩
  simp only [List.countP_cons, List.countP_append, isPollCall, hcnt]
  simp [isPollCall]
  omega

/--
Witness for C2 (amended): the scenario of `test_while_exhausts` — stop
`\x7bkey5\x7d` stays false, max `\x7bwhileMax\x7d` resolves to 3,
errorOnMax `\x7bkey6\x7d` resolves true — raises with the unresolved stop
expression in the message after 3 body invocations.
-/
theorem C2_while_exhaust_message_witness :
    (while_loop ⟨some (.vstr "{key5}"), some (.vstr "{whileMax}"), .vint 0,
        .vstr "{key6}"⟩ 0
        [("key5", .vbool false), ("whileMax", .vint 3), ("key6", .vbool true)]
        (asWhileBody (fun c => ctxSet c "key5" (.vbool false)))).err
      = some (.loopMaxExhausted (whileExhaustMsg (3 : Int) (.vstr "{key5}")))
    ∧ (while_loop ⟨some (.vstr "{key5}"), some (.vstr "{whileMax}"), .vint 0,
        .vstr "{key6}"⟩ 0
        [("key5", .vbool false), ("whileMax", .vint 3), ("key6", .vbool true)]
        (asWhileBody (fun c => ctxSet c "key5" (.vbool false)))).events.countP
          isPollCall = 3 := by
  have hstop : ∀ c, getFormattedAsBool (ctxSet c "key5" (.vbool false))
      (.vstr "{key5}") = false := by
    intro c
    have hscan : scanTpl "{key5}" = some [TplPart.ph "key5"] := by decide
    simp [getFormattedAsBool, formatVal, hscan, ctxGet_ctxSet_self, truthy]
  exact C2_while_exhaust_message (.vstr "{key5}") (.vstr "{whileMax}")
    (.vstr "{key6}") (.vint 0)
    [("key5", .vbool false), ("whileMax", .vint 3), ("key6", .vbool true)]
    (fun c => ctxSet c "key5" (.vbool false)) 3
    (by decide) (by decide) (by decide) (by decide) (by decide) hstop

/--
Counterexample to C2 as frozen: a WhileDecorator with both `stop` and `max`
set — `stop` the literal boolean `False` — and `error_on_max` true, whose
body runs `max` times without `stop` ever resolving true, raises
`LoopMaxExhaustedError` with the short message "while loop reached 3.", not
the claimed "while loop reached 3 and False never evaluated to True."
(mirrors `test_while_exhausts_hard_true`).
-/
theorem C2_while_exhaust_message_counterexample :
    (while_loop ⟨some (.vbool false), some (.vstr "{whileMax}"), .vint 0,
        .vbool true⟩ 0 [("whileMax", .vint 3)] (asWhileBody id)).err
      = some (.loopMaxExhausted "while loop reached 3.")
    ∧ "while loop reached 3." ≠ whileExhaustMsg (3 : Int) (.vbool false) := by
  constructor
  · decide
  · decide

theorem foreachList_truthy (ctx : Context) (v : Val) (l : List Val)
    (hfl : foreachList ctx v = some l) (hne : l ≠ []) : truthy v = true := by
  cases v with
  | vlist xs =>
      simp only [foreachList, formatVal] at hfl
      simp only [Option.some.injEq] at hfl
      simp only [truthy, decide_eq_true_eq]
      intro hxs
      subst hxs
      simp at hfl
      exact hne hfl
  | vstr s =>
      simp only [truthy, decide_eq_true_eq]
      intro hs
      subst hs
      simp [foreachList, formatVal, scanTpl, scanTplF, renderParts] at hfl
  | vbool b => simp [foreachList, formatVal] at hfl
  | vint n => simp [foreachList, formatVal] at hfl
  | vnone => simp [foreachList, formatVal] at hfl

theorem foreachBody_pure (st : Step) (p : Plugin) (pe : Context → List Ev)
    (hp : ∀ c, p c = ⟨pe c, c, none⟩)
    (hrun : st.run_me = .vbool true) (hskip : st.skip_me = .vbool false) :
    ∀ (l : List Val) (c ctx0 : Context),
      (∀ x, ctxSet c "i" x = ctxSet ctx0 "i" x) →
      foreachBody st p l c =
        ⟨l.flatMap (fun it => .info ("foreach: running step " ++ renderVal it) ::
            .invoke :: pe (ctxSet ctx0 "i" it) ++ [.debugL "done"]),
         if l = [] then c else ctxSet ctx0 "i" (l.getLast?.getD .vnone),
         none⟩ := by
  intro l
  induction l with
  | nil => intro c ctx0 _; simp [foreachBody]
  | cons it rest ih =>
      intro c ctx0 hC
      have hrc : run_conditional_decorators st p (ctxSet c "i" it)
          = ⟨.invoke :: pe (ctxSet c "i" it) ++ [.debugL "done"],
             ctxSet c "i" it, none⟩ := by
        simp [run_conditional_decorators, invoke_step, hp, hrun, hskip,
          getFormattedAsBool, truthy]
      have hC2 : ∀ x, ctxSet (ctxSet c "i" it) "i" x = ctxSet ctx0 "i" x := by
        intro x; rw [ctxSet_ctxSet, hC]
      simp only [foreachBody, hrc]
      rw [ih (ctxSet c "i" it) ctx0 hC2]
      cases rest with
      | nil => simp [hC]
      | cons b bs => simp [hC, List.getLast?_cons_cons]

/--
C4.  For every step whose `foreach` resolves to a sequence of N ≥ 1 elements
and that has no while decorator, `run_step` resolves the foreach value first
(a string-template may itself produce the sequence), then resolves each
element independently against the context, invokes the loop body exactly N
times in sequence order with `context[i]` set to the resolved element, and
after the loop `context[i]` still holds the last resolved element (the
plugin is any non-mutating, non-raising plugin, so the claim determines the
full outcome, computed explicitly below).
-/
theorem C4_foreach_iteration (nm : String) (md : Module) (fv : Val) (ctx : Context)
    (p : Plugin) (pe : Context → List Ev) (l : List Val)
    (hp : ∀ c, p c = ⟨pe c, c, none⟩)
    (hfl : foreachList ctx fv = some l) (hne : l ≠ []) :
    run_step { name := nm, module := md, foreach_items := some fv } p 0 ctx =
      ⟨.info ("foreach decorator will loop " ++ toString l.length ++ " times.") ::
         l.flatMap (fun it => .info ("foreach: running step " ++ renderVal it) ::
            .invoke :: pe (ctxSet ctx "i" it) ++ [.debugL "done"]),
       ctxSet ctx "i" (l.getLast?.getD .vnone), none⟩ := by
  have htr : truthy fv = true := foreachList_truthy ctx fv l hfl hne
  have hbody := foreachBody_pure { name := nm, module := md, foreach_items := some fv }
    p pe hp rfl rfl l ctx ctx (fun _ => rfl)
  simp only [run_step, set_step_input_context, foreach_or_conditional, htr,
    foreach_loop, if_true]
  rw [show ((some fv).getD Val.vnone) = fv from rfl, hfl]
  simp only [hbody]
  simp [hne]

/--
Witness for C4: the scenario of `test_foreach_with_single_key_substitution` —
`foreach: \x7blist\x7d` resolves to a four-element list whose last element is
itself a template; the body runs four times and `context[i]` ends holding
"formatted value1".
-/
theorem C4_foreach_iteration_witness :
    run_step { name := "step1"
               module := "step1"
               foreach_items := some (.vstr "{list}") } nopPlugin 0
      (testCtx ++ [("list", .vlist [.vint 99, .vbool true, .vstr "string here",
        .vstr "formatted {key1}"])]) =
    ⟨[.info "foreach decorator will loop 4 times.",
      .info "foreach: running step 99", .invoke, .debugL "done",
      .info "foreach: running step True", .invoke, .debugL "done",
      .info "foreach: running step string here", .invoke, .debugL "done",
      .info "foreach: running step formatted value1", .invoke, .debugL "done"],
     testCtx ++ [("list", .vlist [.vint 99, .vbool true, .vstr "string here",
        .vstr "formatted {key1}"]), ("i", .vstr "formatted value1")], none⟩ := by
  have h := C4_foreach_iteration "step1" "step1" (.vstr "{list}")
    (testCtx ++ [("list", .vlist [.vint 99, .vbool true, .vstr "string here",
      .vstr "formatted {key1}"])])
    nopPlugin (fun _ => [])
    [.vint 99, .vbool true, .vstr "string here", .vstr "formatted value1"]
    (fun _ => rfl) (by decide) (by decide)
  exact h.trans (by decide)

theorem mem_addToRegistry (reg : List (List String)) (d p : List String) :
    p ∈ addToRegistry reg d ↔ p ∈ reg ∨ p ∈ prefixesOf d := by
  simp [addToRegistry, List.mem_append, List.mem_filter]
  tauto

theorem visit_shared_root_go (r : String) :
    ∀ (ds : List (List String)) (reg0 : List (List String)),
      (∀ d ∈ ds, d ≠ [] ∧ d.headD "" = r) →
      ∃ reg, (ds.map (fun d => ImportStmt.imp d none)).foldlM visitStmt
          (⟨reg0, [(r, [r])]⟩ : NsState) = .ok ⟨reg, [(r, [r])]⟩
        ∧ (∀ p ∈ reg0, p ∈ reg)
        ∧ ∀ d ∈ ds, ∀ p ∈ prefixesOf d, p ∈ reg := by
  intro ds
  induction ds with
  | nil =>
      intro reg0 _
      exact ⟨reg0, rfl, fun p hp => hp, by simp⟩
  | cons d rest ih =>
      intro reg0 hall
      obtain ⟨hdne, hdr⟩ := hall d (by simp)
      have hstep : visitStmt (⟨reg0, [(r, [r])]⟩ : NsState) (ImportStmt.imp d none)
          = .ok ⟨addToRegistry reg0 d, [(r, [r])]⟩ := by
        cases d with
        | nil => exact absurd rfl hdne
        | cons a t =>
            simp only [List.headD] at hdr
            subst hdr
            simp [visitStmt]
      obtain ⟨reg, hfold, hmono, hmem⟩ := ih (addToRegistry reg0 d)
        (fun e he => hall e (by simp [he]))
      refine ⟨reg, ?_, ?_, ?_⟩
      · simp only [List.map_cons, List.foldlM_cons, hstep]
        simpa using hfold
      · intro p hp
        exact hmono p ((mem_addToRegistry reg0 d p).mpr (Or.inl hp))
      · intro e he
        rcases List.mem_cons.mp he with rfl | he
        · intro p hp
          exact hmono p ((mem_addToRegistry reg0 _ p).mpr (Or.inr hp))
        · exact hmem e he

/--
C7.  For every import fragment consisting of non-aliased `import a.b.c`
statements that share the same top-level package name, `get_namespace`
produces exactly one namespace entry, bound to the top-level name and
mapping to the top-level module object, through which every imported
submodule is reachable by normal attribute access; repeated imports under
the same root reuse the existing entry rather than creating a duplicate
root.
-/
theorem C7_shared_root_single_entry (ds : List (List String)) (r : String)
    (hne : ds ≠ []) (hall : ∀ d ∈ ds, d ≠ [] ∧ d.headD "" = r) :
    ∃ reg, get_namespace (ds.map (fun d => ImportStmt.imp d none))
        = .ok ⟨reg, [(r, [r])]⟩
      ∧ ∀ d ∈ ds, accessible ⟨reg, [(r, [r])]⟩ r (d.drop 1) = true := by
  cases ds with
  | nil => exact absurd rfl hne
  | cons d rest =>
      obtain ⟨hdne, hdr⟩ := hall d (by simp)
      have hstep : visitStmt (⟨[], []⟩ : NsState) (ImportStmt.imp d none)
          = .ok ⟨addToRegistry [] d, [(r, [r])]⟩ := by
        cases d with
        | nil => exact absurd rfl hdne
        | cons a t =>
            simp only [List.headD] at hdr
            subst hdr
            simp [visitStmt]
      obtain ⟨reg, hfold, hmono, hmem⟩ := visit_shared_root_go r rest
        (addToRegistry [] d) (fun e he => hall e (by simp [he]))
      have hcons : ∀ e : List String, e ≠ [] → e.headD "" = r →
          [r] ++ e.drop 1 = e := by
        intro e hene her
        cases e with
        | nil => exact absurd rfl hene
        | cons a t => simp only [List.headD] at her; simp [her]
      refine ⟨reg, ?_, ?_⟩
      · simp only [get_namespace, List.map_cons, List.foldlM_cons, hstep]
        simpa using hfold
      · intro e he
        obtain ⟨hene, her⟩ := hall e he
        have hfind : List.find? (fun b => decide (b.1 = r)) [(r, [r])]
            = some (r, [r]) := by simp
        simp only [accessible, hfind, List.all_eq_true, decide_eq_true_eq]
        intro p hp
        rw [show ((r, [r]) : String × List String).2 ++ List.drop 1 e
            = [r] ++ List.drop 1 e from rfl, hcons e hene her] at hp
        rcases List.mem_cons.mp he with rfl | he
        · exact hmono p ((mem_addToRegistry [] _ p).mpr (Or.inr hp))
        · exact hmem e he p hp

/--
Witness for C7: the fragment of `test_import_visitor_repeating_parent` —
`import tests.arbpack.arbmod`, `import tests.arbpack.arbmod2`,
`import tests.arbpack.arbmod3` — binds exactly the root `tests` and every
imported submodule is reachable from it.
-/
theorem C7_shared_root_single_entry_witness :
    ∃ reg, get_namespace
        ([["tests", "arbpack", "arbmod"], ["tests", "arbpack", "arbmod2"],
          ["tests", "arbpack", "arbmod3"]].map (fun d => ImportStmt.imp d none))
        = .ok ⟨reg, [("tests", ["tests"])]⟩
      ∧ ∀ d ∈ [["tests", "arbpack", "arbmod"], ["tests", "arbpack", "arbmod2"],
          ["tests", "arbpack", "arbmod3"]],
          accessible ⟨reg, [("tests", ["tests"])]⟩ "tests" (d.drop 1) = true :=
  C7_shared_root_single_entry
    [["tests", "arbpack", "arbmod"], ["tests", "arbpack", "arbmod2"],
     ["tests", "arbpack", "arbmod3"]] "tests" (by decide) (by decide)

/-- The number of module resolutions recorded in a trace. -/
def resolveCount (evs : List Ev) : Nat := evs.countP isResolveEv

theorem resolveCount_append (a b : List Ev) :
    resolveCount (a ++ b) = resolveCount a + resolveCount b := by
  simp [resolveCount, List.countP_append]

theorem resolveCount_run_conditional (st : Step) (p : Plugin) (ctx : Context)
    (hp : ∀ c, resolveCount (p c).events = 0) :
    resolveCount (run_conditional_decorators st p ctx).events = 0 := by
  simp only [run_conditional_decorators, invoke_step]
  by_cases hr : getFormattedAsBool ctx st.run_me
  · simp only [hr, if_true]
    by_cases hs : getFormattedAsBool ctx st.skip_me
    · simp [hs, resolveCount, isResolveEv]
    · simp only [hs, Bool.false_eq_true, if_false]
      cases he : (p ctx).err with
      | none =>
          have := hp ctx
          simp only [resolveCount, List.countP_append, List.countP_cons] at this ⊢
          simp [isResolveEv, this]
      | some e =>
          by_cases hsw : getFormattedAsBool (p ctx).ctx st.swallow_me
          · have := hp ctx
            simp only [resolveCount, List.countP_append, List.countP_cons] at this ⊢
            simp [hsw, isResolveEv, this]
          · have := hp ctx
            simp only [resolveCount, List.countP_append, List.countP_cons] at this ⊢
            simp [hsw, isResolveEv, this]
  · simp [hr, resolveCount, isResolveEv]

theorem resolveCount_foreachBody (st : Step) (p : Plugin)
    (hp : ∀ c, resolveCount (p c).events = 0) :
    ∀ (l : List Val) (ctx : Context),
      resolveCount (foreachBody st p l ctx).events = 0 := by
  intro l
  induction l with
  | nil => intro ctx; simp [foreachBody, resolveCount]
  | cons it rest ih =>
      intro ctx
      simp only [foreachBody]
      cases he : (run_conditional_decorators st p (ctxSet ctx "i" it)).err with
      | some e =>
          have h1 := resolveCount_run_conditional st p (ctxSet ctx "i" it) hp
          simp only [resolveCount, List.countP_append, List.countP_cons] at h1 ⊢
          simp [isResolveEv, h1]
      | none =>
          have h1 := resolveCount_run_conditional st p (ctxSet ctx "i" it) hp
          have h2 := ih (run_conditional_decorators st p (ctxSet ctx "i" it)).ctx
          simp only [resolveCount, List.countP_append, List.countP_cons] at h1 h2 ⊢
          simp [isResolveEv, h1, h2]

theorem resolveCount_foreach_or_conditional (st : Step) (p : Plugin) (ctx : Context)
    (hp : ∀ c, resolveCount (p c).events = 0) :
    resolveCount (foreach_or_conditional st p ctx).events = 0 := by
  simp only [foreach_or_conditional]
  by_cases hfe : (match st.foreach_items with
      | some v => truthy v
      | none => false) = true
  · simp only [hfe, if_true, foreach_loop]
    cases hfl : foreachList ctx ((st.foreach_items).getD .vnone) with
    | some l =>
        have := resolveCount_foreachBody st p hp l ctx
        simp only [resolveCount, List.countP_cons] at this ⊢
        simp [isResolveEv, this]
    | none => simp [resolveCount]
  · simp only [hfe, Bool.false_eq_true, if_false]
    exact resolveCount_run_conditional st p ctx hp

theorem resolveCount_pollGo {σ : Type} (interval : ℚ) (ma : Option Int)
    (g : Nat → σ → FOut σ) (hg : ∀ i s, resolveCount (g i s).events = 0) :
    ∀ (fuel i : Nat) (s : σ),
      resolveCount (pollGo interval ma g fuel i s).trace = 0 := by
  intro fuel
  induction fuel with
  | zero => intro i s; simp [pollGo, resolveCount]
  | succ fuel ih =>
      intro i s
      simp only [pollGo]
      cases he : (g i s).err with
      | some e =>
          have := hg i s
          simp only [resolveCount, List.countP_cons] at this ⊢
          simp [isResolveEv, this]
      | none =>
          by_cases hres : (g i s).result = true
          · have := hg i s
            simp only [hres, resolveCount, List.countP_append, List.countP_cons]
              at this ⊢
            simp [isResolveEv, this]
          · simp only [Bool.not_eq_true] at hres
            have h1 := hg i s
            cases ma with
            | some m =>
                by_cases hlt : (i : Int) < m
                · have h2 := ih (i + 1) (g i s).state
                  simp only [hres, hlt, resolveCount, List.countP_append,
                    List.countP_cons, if_true] at h1 h2 ⊢
                  simp [isResolveEv, h1, h2]
                · simp only [hres, hlt, resolveCount, List.countP_append,
                    List.countP_cons, if_false] at h1 ⊢
                  simp [isResolveEv, h1]
            | none =>
                have h2 := ih (i + 1) (g i s).state
                simp only [hres, resolveCount, List.countP_append,
                  List.countP_cons] at h1 h2 ⊢
                simp [isResolveEv, h1, h2]

theorem resolveCount_while_until_true {σ : Type} (interval : ℚ) (ma : Option Int)
    (fuel : Nat) (g : Nat → σ → FOut σ) (s : σ)
    (hg : ∀ i t, resolveCount (g i t).events = 0) :
    resolveCount (while_until_true interval ma fuel g s).trace = 0 := by
  simp only [while_until_true]
  have h1 := resolveCount_pollGo interval
    (match ma with
     | some m => if m = 0 then none else some m
     | none => none) g hg fuel 1 s
  have hpost : ∀ st : PollStatus, List.countP isResolveEv
      (match st with
       | PollStatus.raised _ => []
       | PollStatus.fuelOut => []
       | _ => [Ev.debugL "done"]) = 0 := by
    intro st; cases st <;> simp [isResolveEv]
  simp only [resolveCount, List.countP_append, List.countP_cons] at h1 ⊢
  simp [isResolveEv, h1, hpost]

theorem resolveCount_exec_iteration (wd : WhileDecorator)
    (stepMethod : Context → Outcome)
    (hs : ∀ c, resolveCount (stepMethod c).events = 0) :
    ∀ (i : Nat) (c : Context),
      resolveCount (exec_iteration wd stepMethod i c).events = 0 := by
  intro i c
  simp only [exec_iteration]
  cases he : (stepMethod (ctxSet c "whileCounter" (.vint (i : Int)))).err with
  | some e =>
      have := hs (ctxSet c "whileCounter" (.vint (i : Int)))
      simp only [resolveCount, List.countP_append, List.countP_cons] at this ⊢
      simp [isResolveEv, this]
  | none =>
      cases wd.stop with
      | none =>
          have := hs (ctxSet c "whileCounter" (.vint (i : Int)))
          simp only [resolveCount, List.countP_append, List.countP_cons] at this ⊢
          simp [isResolveEv, this]
      | some sv =>
          have := hs (ctxSet c "whileCounter" (.vint (i : Int)))
          simp only [resolveCount, List.countP_append, List.countP_cons] at this ⊢
          simp [isResolveEv, this]

theorem resolveCount_while_loop (wd : WhileDecorator) (ufuel : Nat) (ctx : Context)
    (stepMethod : Context → Outcome)
    (hs : ∀ c, resolveCount (stepMethod c).events = 0) :
    resolveCount (while_loop wd ufuel ctx stepMethod).events = 0 := by
  have hg := resolveCount_exec_iteration wd stepMethod hs
  simp only [while_loop]
  split
  · simp [resolveCount]
  · split
    · simp [resolveCount, isResolveEv]
    · split
      · have h1 := resolveCount_while_until_true
          (getFormattedAsRat (ctxSet ctx "whileCounter" (.vint 0)) wd.sleep) none
          ufuel (exec_iteration wd stepMethod) (ctxSet ctx "whileCounter" (.vint 0))
          hg
        simp only [resolveCount, List.countP_cons] at h1 ⊢
        split <;> simp [isResolveEv, h1]
      · split
        · simp [resolveCount]
        · rename_i m hm
          have h1 := resolveCount_while_until_true
            (getFormattedAsRat (ctxSet ctx "whileCounter" (.vint 0)) wd.sleep)
            (some m) (m.toNat + 1) (exec_iteration wd stepMethod)
            (ctxSet ctx "whileCounter" (.vint 0)) hg
          simp only [resolveCount, List.countP_cons, List.countP_append] at h1 ⊢
          split <;> split <;>
            simp [isResolveEv, h1, List.countP_append, List.countP_cons]
          intro a _ _ ha
          subst ha
          rfl

theorem resolveCount_run_step (st : Step) (p : Plugin) (ufuel : Nat) (ctx : Context)
    (hp : ∀ c, resolveCount (p c).events = 0) :
    resolveCount (run_step st p ufuel ctx).events = 0 := by
  simp only [run_step]
  cases hwd : st.while_decorator with
  | some wd =>
      exact resolveCount_while_loop wd ufuel (set_step_input_context st ctx)
        (foreach_or_conditional st p)
        (fun c => resolveCount_foreach_or_conditional st p c hp)
  | none =>
      exact resolveCount_foreach_or_conditional st p (set_step_input_context st ctx) hp

/--
C8.  For every Step, the plugin module is resolved via `get_module` exactly
once per step within a pipeline run: the resolution happens at Step
construction, and `run_step` — however many foreach elements and while
iterations it executes — performs no further resolution, so the combined
construct-then-run trace contains exactly one module resolution.
-/
theorem C8_module_resolved_once (sdef : StepDef) (p : Plugin) (ufuel : Nat)
    (ctx : Context) (hp : ∀ c, resolveCount (p c).events = 0) :
    resolveCount (stepInit sdef).1 = 1
    ∧ resolveCount (run_step (stepInit sdef).2 p ufuel ctx).events = 0
    ∧ resolveCount ((stepInit sdef).1
        ++ (run_step (stepInit sdef).2 p ufuel ctx).events) = 1 := by
  have h1 : resolveCount (stepInit sdef).1 = 1 := by
    cases sdef <;> simp [stepInit, resolveCount, isResolveEv]
  have h2 := resolveCount_run_step (stepInit sdef).2 p ufuel ctx hp
  exact ⟨h1, h2, by rw [resolveCount_append, h1, h2]⟩

/--
Witness for C8: a step with both a three-element `foreach` and a `while`
with max 2 — twelve plugin invocations across the nested loops, but exactly
one module resolution, at construction.
-/
theorem C8_module_resolved_once_witness :
    resolveCount (stepInit (.complex "step1" none none none none
        (some (.vlist [.vstr "{key1}", .vstr "{key2}", .vstr "key3"]))
        (some ⟨none, some (.vint 2), .vint 0, .vbool false⟩))).1 = 1
    ∧ resolveCount (run_step (stepInit (.complex "step1" none none none none
        (some (.vlist [.vstr "{key1}", .vstr "{key2}", .vstr "key3"]))
        (some ⟨none, some (.vint 2), .vint 0, .vbool false⟩))).2
        nopPlugin 0 testCtx).events = 0 := by
  have h := C8_module_resolved_once (.complex "step1" none none none none
      (some (.vlist [.vstr "{key1}", .vstr "{key2}", .vstr "key3"]))
      (some ⟨none, some (.vint 2), .vint 0, .vbool false⟩))
    nopPlugin 0 testCtx (fun c => rfl)
  exact ⟨h.1, h.2.1⟩

end Pypyr
